import Mathlib

/-!
Verification of the paragraph-collection scripts
(`generate_spanish_paragraphs.py`, its `_fixed` variant, and
`generate_spanish_paragraphs_v2.py`).

The pure logic of the scripts is embedded shallowly:

* text utilities (`first_long_paragraph` of each variant, Python's
  `str.split()` word counting, `str.strip()`, the `re.split`/`re.sub`
  patterns actually used) become executable Lean functions over
  `List Char` / `String`;
* each orchestrator `main` loop becomes an explicit fold over a list of
  producers, where a producer is the list of events (yielded records,
  possibly terminated by a raised exception) that one generator
  produces during the run;
* network adapters become functions of the fetch outcome (status code,
  final URL after redirects, fetched/cleaned body), which the real code
  obtains from `requests`/`feedparser`/`BeautifulSoup` — those
  libraries are outside the analysed repository and are abstracted as
  the adapters' inputs.
-/

/-- ASCII whitespace recognised by Python's `str.strip()` / regex `\s`
(space, tab, newline, carriage return, vertical tab, form feed).  The
Unicode-only whitespace code points are irrelevant to the analysed
behaviour and are omitted. -/
def isPySpace (c : Char) : Bool :=
  c = ' ' || c = '\t' || c = '\n' || c = '\r' || c = '\x0b' || c = '\x0c'

/-- Python `s.strip()`: drop leading and trailing whitespace. -/
def pyStrip (s : String) : String :=
  ⟨((s.data.dropWhile isPySpace).reverse.dropWhile isPySpace).reverse⟩

/-- The shared loop body of both `first_long_paragraph` variants:
`for p in blocks: p = p.strip(); if len(p) >= min_len: return p` and a
final `return ""`. -/
def firstLongLoop (minLen : Nat) : List String → String
  | [] => ""
  | p :: ps =>
    let q := pyStrip p
    if minLen ≤ q.length then q else firstLongLoop minLen ps

/-- Python `text.split('\n')`: split at every newline, keeping empty
pieces (`"" → [""]`). -/
def splitNl : List Char → List (List Char)
  | [] => [[]]
  | c :: rest =>
    if c = '\n' then [] :: splitNl rest
    else
      match splitNl rest with
      | [] => [[c]]
      | b :: bs => (c :: b) :: bs

/-- `first_long_paragraph` of `generate_spanish_paragraphs.py` (and of
the `_fixed` variant, whose copy is identical): iterate over
`text.split('\n')`, strip each piece, return the first of length
`≥ min_len`, else `""`. -/
def first_long_paragraph_v1 (text : String) (minLen : Nat := 120) : String :=
  firstLongLoop minLen ((splitNl text.data).map fun b => ⟨b⟩)

/-- Does a pending whitespace run contain at least two newlines?  Such a
run is exactly where the v2 pattern `\n\s*\n` can match. -/
def twoNl (pend : List Char) : Bool :=
  2 ≤ (pend.filter fun c => c = '\n').length

/-- Part of a whitespace run before its first newline (belongs to the
block preceding a `\n\s*\n` separator). -/
def wsBefore (pend : List Char) : List Char :=
  pend.takeWhile fun c => c ≠ '\n'

/-- Part of a whitespace run after its last newline (belongs to the
block following a `\n\s*\n` separator, because `\s*` is greedy and
backtracks only to the last newline of the run). -/
def wsAfter (pend : List Char) : List Char :=
  (pend.reverse.takeWhile fun c => c ≠ '\n').reverse

/-- One-pass scanner realising Python `re.split(r"\n\s*\n", text)`:
`cur` is the block built so far, `pend` a pending maximal whitespace
run.  A maximal whitespace run containing at least two newlines is a
separator reaching from its first to its last newline; any other
whitespace run is ordinary block content. -/
def bsGo : List Char → List Char → List Char → List (List Char)
  | [], cur, pend =>
    if twoNl pend then [cur ++ wsBefore pend, wsAfter pend] else [cur ++ pend]
  | c :: rest, cur, pend =>
    if isPySpace c then bsGo rest cur (pend ++ [c])
    else if twoNl pend then (cur ++ wsBefore pend) :: bsGo rest (wsAfter pend ++ [c]) []
    else bsGo rest (cur ++ pend ++ [c]) []

/-- Python `re.split(r"\n\s*\n", text)` as used by
`first_long_paragraph` of `generate_spanish_paragraphs_v2.py`. -/
def blankSplit (cs : List Char) : List (List Char) :=
  bsGo cs [] []

/-- `first_long_paragraph` of `generate_spanish_paragraphs_v2.py`:
iterate over `re.split(r"\n\s*\n", text)`, strip each piece, return the
first of length `≥ min_len`, else `""`. -/
def first_long_paragraph_v2 (text : String) (minLen : Nat := 120) : String :=
  firstLongLoop minLen ((blankSplit text.data).map fun b => ⟨b⟩)

/-- Word counter for Python `len(s.split())` (whitespace-separated
maximal words, empties dropped).  The boolean argument records whether
the scanner is currently inside a word. -/
def wordsGo : List Char → Bool → Nat
  | [], _ => 0
  | c :: rest, inw =>
    if isPySpace c then wordsGo rest false
    else (if inw then 0 else 1) + wordsGo rest true

/-- `len(paragraph.split())` of the v1 orchestrator's quality gate. -/
def pyWordsCount (s : String) : Nat :=
  wordsGo s.data false

/-- One-pass scanner for Python
`re.sub(r"\{\{.*?\}\}", "", text, flags=re.DOTALL)` (used by
`paragraph_from_wikisource`).  `none` is ordinary copying; `some buf`
means an opening double brace was seen and `buf` holds the consumed
characters, restored verbatim if the input ends without a closing
double brace (in which case the regex never matched there). -/
def stGo : List Char → Option (List Char) → List Char
  | [], none => []
  | [], some buf => buf
  | '\x7b' :: '\x7b' :: rest, none => stGo rest (some ['\x7b', '\x7b'])
  | '\x7d' :: '\x7d' :: rest, some _ => stGo rest none
  | c :: rest, none => c :: stGo rest none
  | c :: rest, some buf => stGo rest (some (buf ++ [c]))

/-- Python `re.sub(r"\{\{.*?\}\}", "", text, flags=re.DOTALL)`. -/
def stripTemplates (cs : List Char) : List Char :=
  stGo cs none

/-- Grouping of lines into candidate blocks as the spec words it
(§4.1): blocks are maximal runs of lines separated by one or more
newline-only (empty) lines; each block keeps its internal newlines.
`cur` is the block under construction, the flag whether one is open. -/
def sbGo : List (List Char) → List Char → Bool → List (List Char)
  | [], cur, started => if started then [cur] else []
  | l :: rest, cur, started =>
    if l.isEmpty then
      if started then cur :: sbGo rest [] false else sbGo rest [] false
    else if started then sbGo rest (cur ++ '\n' :: l) true
    else sbGo rest l true

/-- Candidate blocks of a raw text under the spec's splitting rule. -/
def specBlocks (cs : List Char) : List (List Char) :=
  sbGo (splitNl cs) [] false

/-- Modelled from the spec (§4.1 Text Extractor), for comparison with
the implementations: split `raw_text` on blank-line boundaries (one or
more consecutive newline-only lines), return the first block whose
trimmed length is `≥ min_len`, and `none` when no block qualifies. -/
def extract_first_paragraph_spec (raw : String) (minLen : Nat) : Option String :=
  (((specBlocks raw.data).map fun b => pyStrip ⟨b⟩).find? fun b =>
    decide (minLen ≤ b.length))

/-- One `(paragraph, tipo, url)` triple yielded by a producer. -/
structure Rec where
  text : String
  tipo : String
  url : String
deriving DecidableEq

/-- Mutable state of a run: `collected` (the accumulated list) and
`seen` (the membership view of the Python set `seen_urls`). -/
structure RState where
  collected : List Rec
  seen : List String
deriving DecidableEq

/-- Observable behaviour of one producer during a run: a sequence of
yielded records, optionally cut short by a raised exception.  Events
after a `fail` never materialise in Python and are ignored here. -/
inductive PEvent where
  | yield (r : Rec)
  | fail
deriving DecidableEq

/-- Records a producer actually yields: the ones before its first
raised exception. -/
def yielded : List PEvent → List Rec
  | [] => []
  | PEvent.fail :: _ => []
  | PEvent.yield r :: es => r :: yielded es

/-- Inner loop of `main` in `generate_spanish_paragraphs_v2.py` over
one producer (lines 242-251): skip a record whose URL or registrable
domain was seen, skip one shorter than `MIN_PARAGRAPH_LEN`, otherwise
append it, mark its URL seen, and raise `StopIteration` once
`len(collected) >= goal`.  A raised exception ends the producer and is
caught by the orchestrator (`except Exception: continue`), so a `fail`
event just ends the drain without stopping the run.  The returned flag
is whether `StopIteration` was raised.  `df` abstracts `domain` (built
on the external `tldextract`); `goal` is the `--n` argument, a Python
`int`. -/
def drainV2 (df : String → String) (goal : Int) (ml : Nat) :
    RState → List PEvent → RState × Bool
  | st, [] => (st, false)
  | st, PEvent.fail :: _ => (st, false)
  | st, PEvent.yield r :: es =>
    if st.seen.contains r.url || (st.seen.map df).contains (df r.url) then
      drainV2 df goal ml st es
    else if r.text.length < ml then
      drainV2 df goal ml st es
    else
      let st' : RState := ⟨st.collected ++ [r], r.url :: st.seen⟩
      if goal ≤ (st'.collected.length : Int) then (st', true)
      else drainV2 df goal ml st' es

/-- Outer loop of `main` in `generate_spanish_paragraphs_v2.py` (lines
241-255): drain each producer in order; `except StopIteration: break`
ends the run, `except Exception: continue` moves to the next
producer. -/
def runV2Aux (df : String → String) (goal : Int) (ml : Nat) :
    RState → List (List PEvent) → RState × Bool
  | st, [] => (st, false)
  | st, p :: ps =>
    let d := drainV2 df goal ml st p
    if d.2 then (d.1, true) else runV2Aux df goal ml d.1 ps

/-- `main` of `generate_spanish_paragraphs_v2.py`: run from an empty
state with `MIN_PARAGRAPH_LEN = 120`, return the collected rows and
whether the shortfall warning (`len(collected) < goal`) is printed. -/
def mainV2 (df : String → String) (goal : Int) (ps : List (List PEvent)) :
    List Rec × Bool :=
  let st := (runV2Aux df goal 120 ⟨[], []⟩ ps).1
  (st.collected, decide ((st.collected.length : Int) < goal))

/-- Inner loop of `main` in `generate_spanish_paragraphs.py` over one
producer (lines 185-190): accept a record iff its URL is unseen and its
text has more than 20 whitespace-separated words
(`len(paragraph.split()) > 20`), then raise `StopIteration` once
`len(collected) >= goal`.  The source hard-codes `goal = 100`
(`generate_spanish_paragraphs_fixed.py` has the same loop with
`goal = 1000`); the threshold is a parameter here so both variants are
covered. -/
def drainV1 (goal : Nat) : RState → List PEvent → RState × Bool
  | st, [] => (st, false)
  | st, PEvent.fail :: _ => (st, false)
  | st, PEvent.yield r :: es =>
    if !st.seen.contains r.url && decide (20 < pyWordsCount r.text) then
      let st' : RState := ⟨st.collected ++ [r], r.url :: st.seen⟩
      if goal ≤ st'.collected.length then (st', true)
      else drainV1 goal st' es
    else drainV1 goal st es

/-- Outer loop of `main` in `generate_spanish_paragraphs.py` (lines
183-194), identical exception handling to the v2 loop. -/
def runV1Aux (goal : Nat) : RState → List (List PEvent) → RState × Bool
  | st, [] => (st, false)
  | st, p :: ps =>
    let d := drainV1 goal st p
    if d.2 then (d.1, true) else runV1Aux goal d.1 ps

/-- `main` of `generate_spanish_paragraphs.py`: quota 100, plus the
warning flag (`len(collected) < 100`). -/
def mainV1 (ps : List (List PEvent)) : List Rec × Bool :=
  let st := (runV1Aux 100 ⟨[], []⟩ ps).1
  (st.collected, decide (st.collected.length < 100))

/-- `main` of `generate_spanish_paragraphs_fixed.py`: quota 1000. -/
def mainV1fixed (ps : List (List PEvent)) : List Rec × Bool :=
  let st := (runV1Aux 1000 ⟨[], []⟩ ps).1
  (st.collected, decide (st.collected.length < 1000))

/-- Outcome of one `requests.get` as an adapter sees it: a raised
transport exception, or a response with status code, final URL after
redirects (`resp.url`), and the relevant text of the body (for the
HTML-scraping adapters this is the `"\n".join(clean_html(p) ...)` of
the page's `<p>` tags; HTTP, `BeautifulSoup` and `clean_html` are
outside the modelled core). -/
inductive FetchOutcome where
  | fail
  | resp (status : Nat) (finalUrl : String) (body : String)
deriving DecidableEq

/-- `paragraph_from_gutenberg` of `generate_spanish_paragraphs.py`
(lines 129-136): raise on transport failure or non-200 status,
otherwise return `(first_long_paragraph(text), "novela", url)` — even
when the extractor found nothing and returns `""`. -/
def paragraph_from_gutenberg_v1 (o : FetchOutcome) (url : String) :
    Except String Rec :=
  match o with
  | FetchOutcome.fail => Except.error "transport"
  | FetchOutcome.resp status _ body =>
    if status ≠ 200 then Except.error "No se pudo descargar Gutenber."
    else Except.ok ⟨first_long_paragraph_v1 body, "novela", url⟩

/-- `paragraph_from_gutenberg` of `generate_spanish_paragraphs_v2.py`
(lines 150-162): try the two candidate URLs in order; succeed only on a
200 response whose extracted paragraph is non-empty; raise
`RuntimeError("Gutenberg falló")` when both attempts fail that test.  A
transport exception propagates immediately (there is no `try` around
the `requests.get`). -/
def paragraph_from_gutenberg_v2 (o1 o2 : FetchOutcome) (u1 u2 : String) :
    Except String Rec :=
  match o1 with
  | FetchOutcome.fail => Except.error "transport"
  | FetchOutcome.resp s1 _ b1 =>
    if s1 = 200 ∧ first_long_paragraph_v2 b1 ≠ "" then
      Except.ok ⟨first_long_paragraph_v2 b1, "novela", u1⟩
    else
      match o2 with
      | FetchOutcome.fail => Except.error "transport"
      | FetchOutcome.resp s2 _ b2 =>
        if s2 = 200 ∧ first_long_paragraph_v2 b2 ≠ "" then
          Except.ok ⟨first_long_paragraph_v2 b2, "novela", u2⟩
        else Except.error "Gutenberg falló"

/-- `paragraph_from_cervantes` of `generate_spanish_paragraphs_v2.py`
(lines 164-173): raise on transport failure or non-200 status,
otherwise return the extracted paragraph (possibly `""`) with the fixed
request URL. -/
def paragraph_from_cervantes (o : FetchOutcome) (url : String) :
    Except String Rec :=
  match o with
  | FetchOutcome.fail => Except.error "transport"
  | FetchOutcome.resp status _ body =>
    if status ≠ 200 then Except.error "Cervantes falló"
    else Except.ok ⟨first_long_paragraph_v2 body, "novela", url⟩

/-- `paragraph_from_wikisource` of `generate_spanish_paragraphs_v2.py`
(lines 175-182): raise on transport failure or non-200 status,
otherwise strip `{{...}}` templates and return the extracted paragraph
(possibly `""`) with the fixed request URL. -/
def paragraph_from_wikisource (o : FetchOutcome) (url : String) :
    Except String Rec :=
  match o with
  | FetchOutcome.fail => Except.error "transport"
  | FetchOutcome.resp status _ body =>
    if status ≠ 200 then Except.error "Wikisource falló"
    else
      Except.ok ⟨first_long_paragraph_v2 ⟨stripTemplates body.data⟩, "cuento", url⟩

/-- `paragraphs_from_rss` of `generate_spanish_paragraphs.py` (lines
77-94): for each feed entry with a link, fetch it (exceptions and
non-200 statuses skip the item), extract the first long paragraph of
the joined cleaned `<p>` texts, and yield `(paragraph, tipo, link)` —
the feed entry's link, not the response's final URL. -/
def paragraphs_from_rss_v1 (fetch : String → FetchOutcome)
    (entries : List (Option String)) (tipo : String) : List Rec :=
  entries.filterMap fun l? =>
    match l? with
    | none => none
    | some link =>
      match fetch link with
      | FetchOutcome.fail => none
      | FetchOutcome.resp status _ body =>
        if status ≠ 200 then none
        else
          let p := first_long_paragraph_v1 body
          if p = "" then none else some ⟨p, tipo, link⟩

/-- `paragraphs_from_rss` of `generate_spanish_paragraphs_v2.py` (lines
132-148): same shape as the v1 feed adapter, with the v2 extractor;
also yields the feed entry's link. -/
def paragraphs_from_rss_v2 (fetch : String → FetchOutcome)
    (entries : List (Option String)) (tipo : String) : List Rec :=
  entries.filterMap fun l? =>
    match l? with
    | none => none
    | some link =>
      match fetch link with
      | FetchOutcome.fail => none
      | FetchOutcome.resp status _ body =>
        if status ≠ 200 then none
        else
          let p := first_long_paragraph_v2 body
          if p = "" then none else some ⟨p, tipo, link⟩

/-- `random_cuento_paragraph` of `generate_spanish_paragraphs.py`
(lines 142-151): raise on transport failure or non-200 status,
otherwise return the extracted paragraph with `resp.url`, the final URL
after redirects. -/
def random_cuento_paragraph (o : FetchOutcome) : Except String Rec :=
  match o with
  | FetchOutcome.fail => Except.error "transport"
  | FetchOutcome.resp status finalUrl body =>
    if status ≠ 200 then Except.error "No se pudo descargar cuento corto."
    else Except.ok ⟨first_long_paragraph_v1 body, "cuento", finalUrl⟩

/-- A 130-character single-word text: above `MIN_PARAGRAPH_LEN` but
with only one whitespace-separated word. -/
def longA : String := ⟨List.replicate 130 'a'⟩

/-- A 42-character, 21-word text: below `MIN_PARAGRAPH_LEN` but past
the v1 word-count gate. -/
def manyWords : String := ⟨(List.replicate 21 ['b', ' ']).flatten⟩

/-- Concrete qualifying records on distinct URLs. -/
def recA : Rec := ⟨longA, "noticia", "https://a.example/1"⟩

def recB : Rec := ⟨longA, "blog", "https://b.example/2"⟩

def recC : Rec := ⟨longA, "cuento", "https://c.example/3"⟩

def recD : Rec := ⟨longA, "novela", "https://d.example/4"⟩

/-- Two 70-character lines separated by a single newline: one candidate
block under blank-line splitting, two short lines under the v1 split. -/
def twoLines : String :=
  ⟨List.replicate 70 'a' ++ '\n' :: List.replicate 70 'a'⟩

/-- The input of spec property P5. -/
def p5Input : String :=
  "short\n\nThis is a sufficiently long paragraph text exceeding one hundred twenty characters in total length to pass the minimum threshold check."

/-- The second block of `p5Input`. -/
def p5Second : String :=
  "This is a sufficiently long paragraph text exceeding one hundred twenty characters in total length to pass the minimum threshold check."

/-- Two 70-character lines separated by a whitespace-only line: the v2
pattern splits there, the spec's newline-only rule does not. -/
def wsLines : String :=
  ⟨List.replicate 70 'a' ++ '\n' :: ' ' :: '\n' :: List.replicate 70 'a'⟩

/-- The Deduplicator invariant: the seen set is exactly the URLs of the
collected records (as a list, in reverse acceptance order). -/
def SeenInv (st : RState) : Prop :=
  st.seen = (st.collected.map fun r => r.url).reverse

lemma drainV2_nil (df : String → String) (goal : Int) (ml : Nat) (st : RState) :
    drainV2 df goal ml st [] = (st, false) := rfl

lemma drainV2_fail (df : String → String) (goal : Int) (ml : Nat) (st : RState)
    (es : List PEvent) :
    drainV2 df goal ml st (PEvent.fail :: es) = (st, false) := rfl

lemma drainV2_cons (df : String → String) (goal : Int) (ml : Nat) (st : RState)
    (r : Rec) (es : List PEvent) :
    drainV2 df goal ml st (PEvent.yield r :: es) =
      if st.seen.contains r.url || (st.seen.map df).contains (df r.url) then
        drainV2 df goal ml st es
      else if r.text.length < ml then
        drainV2 df goal ml st es
      else if goal ≤ ((st.collected ++ [r]).length : Int) then
        (⟨st.collected ++ [r], r.url :: st.seen⟩, true)
      else drainV2 df goal ml ⟨st.collected ++ [r], r.url :: st.seen⟩ es := rfl

lemma drainV2_inv (df : String → String) (goal : Int) (ml : Nat) (P : RState → Prop)
    (hstep : ∀ st r,
      P st →
      (st.seen.contains r.url || (st.seen.map df).contains (df r.url)) = false →
      ¬ r.text.length < ml →
      P ⟨st.collected ++ [r], r.url :: st.seen⟩) :
    ∀ (es : List PEvent) (st : RState), P st → P (drainV2 df goal ml st es).1 := by
  intro es
  induction es with
  | nil => intro st h; exact h
  | cons e es ih =>
    intro st h
    cases e with
    | fail => exact h
    | yield r =>
      rw [drainV2_cons]
      split_ifs with h1 h2 h3
      · exact ih st h
      · exact ih st h
      · exact hstep st r h (by simpa using h1) h2
      · exact ih _ (hstep st r h (by simpa using h1) h2)

lemma runV2Aux_nil (df : String → String) (goal : Int) (ml : Nat) (st : RState) :
    runV2Aux df goal ml st [] = (st, false) := rfl

lemma runV2Aux_cons (df : String → String) (goal : Int) (ml : Nat) (st : RState)
    (p : List PEvent) (ps : List (List PEvent)) :
    runV2Aux df goal ml st (p :: ps) =
      if (drainV2 df goal ml st p).2 then ((drainV2 df goal ml st p).1, true)
      else runV2Aux df goal ml (drainV2 df goal ml st p).1 ps := rfl

lemma runV2Aux_inv (df : String → String) (goal : Int) (ml : Nat) (P : RState → Prop)
    (hstep : ∀ st r,
      P st →
      (st.seen.contains r.url || (st.seen.map df).contains (df r.url)) = false →
      ¬ r.text.length < ml →
      P ⟨st.collected ++ [r], r.url :: st.seen⟩) :
    ∀ (ps : List (List PEvent)) (st : RState), P st → P (runV2Aux df goal ml st ps).1 := by
  intro ps
  induction ps with
  | nil => intro st h; exact h
  | cons p ps ih =>
    intro st h
    rw [runV2Aux_cons]
    have hd := drainV2_inv df goal ml P hstep p st h
    split_ifs with h1
    · exact hd
    · exact ih _ hd

lemma drainV1_cons (goal : Nat) (st : RState) (r : Rec) (es : List PEvent) :
    drainV1 goal st (PEvent.yield r :: es) =
      if !st.seen.contains r.url && decide (20 < pyWordsCount r.text) then
        if goal ≤ (st.collected ++ [r]).length then
          (⟨st.collected ++ [r], r.url :: st.seen⟩, true)
        else drainV1 goal ⟨st.collected ++ [r], r.url :: st.seen⟩ es
      else drainV1 goal st es := rfl

lemma drainV1_inv (goal : Nat) (P : RState → Prop)
    (hstep : ∀ st r,
      P st →
      st.seen.contains r.url = false →
      20 < pyWordsCount r.text →
      P ⟨st.collected ++ [r], r.url :: st.seen⟩) :
    ∀ (es : List PEvent) (st : RState), P st → P (drainV1 goal st es).1 := by
  intro es
  induction es with
  | nil => intro st h; exact h
  | cons e es ih =>
    intro st h
    cases e with
    | fail => exact h
    | yield r =>
      rw [drainV1_cons]
      split_ifs with h1 h2
      · have := h1
        simp only [Bool.and_eq_true, Bool.not_eq_true', decide_eq_true_eq] at this
        exact hstep st r h this.1 this.2
      · have := h1
        simp only [Bool.and_eq_true, Bool.not_eq_true', decide_eq_true_eq] at this
        exact ih _ (hstep st r h this.1 this.2)
      · exact ih st h

lemma runV1Aux_cons (goal : Nat) (st : RState) (p : List PEvent)
    (ps : List (List PEvent)) :
    runV1Aux goal st (p :: ps) =
      if (drainV1 goal st p).2 then ((drainV1 goal st p).1, true)
      else runV1Aux goal (drainV1 goal st p).1 ps := rfl

lemma runV1Aux_inv (goal : Nat) (P : RState → Prop)
    (hstep : ∀ st r,
      P st →
      st.seen.contains r.url = false →
      20 < pyWordsCount r.text →
      P ⟨st.collected ++ [r], r.url :: st.seen⟩) :
    ∀ (ps : List (List PEvent)) (st : RState), P st → P (runV1Aux goal st ps).1 := by
  intro ps
  induction ps with
  | nil => intro st h; exact h
  | cons p ps ih =>
    intro st h
    rw [runV1Aux_cons]
    have hd := drainV1_inv goal P hstep p st h
    split_ifs with h1
    · exact hd
    · exact ih _ hd

lemma drainV2_len (df : String → String) (goal : Int) (ml : Nat) :
    ∀ (es : List PEvent) (st : RState),
      (st.collected.length : Int) < goal →
      (((drainV2 df goal ml st es).2 = true →
          ((drainV2 df goal ml st es).1.collected.length : Int) = goal) ∧
        ((drainV2 df goal ml st es).2 = false →
          ((drainV2 df goal ml st es).1.collected.length : Int) < goal)) := by
  intro es
  induction es with
  | nil =>
    intro st h
    exact ⟨fun hc => by simp [drainV2_nil] at hc, fun _ => h⟩
  | cons e es ih =>
    intro st h
    cases e with
    | fail => exact ⟨fun hc => by simp [drainV2_fail] at hc, fun _ => h⟩
    | yield r =>
      rw [drainV2_cons]
      split_ifs with h1 h2 h3
      · exact ih st h
      · exact ih st h
      · constructor
        · intro _
          simp only [List.length_append, List.length_cons, List.length_nil]
          simp only [List.length_append, List.length_cons, List.length_nil] at h3
          omega
        · intro hc; simp at hc
      · refine ih _ ?_
        simp only [List.length_append, List.length_cons, List.length_nil] at h3 ⊢
        omega

lemma runV2Aux_len (df : String → String) (goal : Int) (ml : Nat) :
    ∀ (ps : List (List PEvent)) (st : RState),
      (st.collected.length : Int) < goal →
      (((runV2Aux df goal ml st ps).2 = true →
          ((runV2Aux df goal ml st ps).1.collected.length : Int) = goal) ∧
        ((runV2Aux df goal ml st ps).2 = false →
          ((runV2Aux df goal ml st ps).1.collected.length : Int) < goal)) := by
  intro ps
  induction ps with
  | nil =>
    intro st h
    exact ⟨fun hc => by simp [runV2Aux_nil] at hc, fun _ => h⟩
  | cons p ps ih =>
    intro st h
    rw [runV2Aux_cons]
    have hd := drainV2_len df goal ml p st h
    split_ifs with h1
    · exact ⟨fun _ => hd.1 h1, fun hc => by simp at hc⟩
    · exact ih _ (hd.2 (by simpa using h1))

lemma drainV1_len (goal : Nat) :
    ∀ (es : List PEvent) (st : RState),
      st.collected.length < goal →
      (((drainV1 goal st es).2 = true →
          (drainV1 goal st es).1.collected.length = goal) ∧
        ((drainV1 goal st es).2 = false →
          (drainV1 goal st es).1.collected.length < goal)) := by
  intro es
  induction es with
  | nil => intro st h; exact ⟨fun hc => by simp [drainV1] at hc, fun _ => h⟩
  | cons e es ih =>
    intro st h
    cases e with
    | fail => exact ⟨fun hc => by simp [drainV1] at hc, fun _ => h⟩
    | yield r =>
      rw [drainV1_cons]
      split_ifs with h1 h2
      · constructor
        · intro _
          simp only [List.length_append, List.length_cons, List.length_nil]
          simp only [List.length_append, List.length_cons, List.length_nil] at h2
          omega
        · intro hc; simp at hc
      · refine ih _ ?_
        simp only [List.length_append, List.length_cons, List.length_nil] at h2 ⊢
        omega
      · exact ih st h

lemma runV1Aux_len (goal : Nat) :
    ∀ (ps : List (List PEvent)) (st : RState),
      st.collected.length < goal →
      (((runV1Aux goal st ps).2 = true →
          (runV1Aux goal st ps).1.collected.length = goal) ∧
        ((runV1Aux goal st ps).2 = false →
          (runV1Aux goal st ps).1.collected.length < goal)) := by
  intro ps
  induction ps with
  | nil => intro st h; exact ⟨fun hc => by simp [runV1Aux] at hc, fun _ => h⟩
  | cons p ps ih =>
    intro st h
    rw [runV1Aux_cons]
    have hd := drainV1_len goal p st h
    split_ifs with h1
    · exact ⟨fun _ => hd.1 h1, fun hc => by simp at hc⟩
    · exact ih _ (hd.2 (by simpa using h1))

lemma runV2Aux_append_of_stop (df : String → String) (goal : Int) (ml : Nat) :
    ∀ (ps qs : List (List PEvent)) (st : RState),
      (runV2Aux df goal ml st ps).2 = true →
      runV2Aux df goal ml st (ps ++ qs) = runV2Aux df goal ml st ps := by
  intro ps qs
  induction ps with
  | nil => intro st h; simp [runV2Aux_nil] at h
  | cons p ps ih =>
    intro st h
    rw [runV2Aux_cons] at h ⊢
    rw [List.cons_append, runV2Aux_cons]
    split_ifs with h1
    · rfl
    · rw [if_neg h1] at h
      exact ih _ h

lemma drainV2_fail_trunc (df : String → String) (goal : Int) (ml : Nat) :
    ∀ (evs junk : List PEvent) (st : RState),
      drainV2 df goal ml st (evs ++ PEvent.fail :: junk) = drainV2 df goal ml st evs := by
  intro evs junk
  induction evs with
  | nil => intro st; rfl
  | cons e es ih =>
    intro st
    cases e with
    | fail => rfl
    | yield r =>
      rw [List.cons_append, drainV2_cons, drainV2_cons]
      split_ifs
      · exact ih st
      · exact ih st
      · rfl
      · exact ih _

lemma runV2Aux_zero_yield (df : String → String) (goal : Int) (ml : Nat)
    (junk : List PEvent) :
    ∀ (ps qs : List (List PEvent)) (st : RState),
      runV2Aux df goal ml st (ps ++ (PEvent.fail :: junk) :: qs) =
        runV2Aux df goal ml st (ps ++ qs) := by
  intro ps qs
  induction ps with
  | nil =>
    intro st
    rw [List.nil_append, List.nil_append, runV2Aux_cons]
    simp [drainV2_fail]
  | cons p ps ih =>
    intro st
    rw [List.cons_append, List.cons_append, runV2Aux_cons, runV2Aux_cons]
    split_ifs
    · rfl
    · exact ih _

lemma drainV2_collected_ext (df : String → String) (goal : Int) (ml : Nat) :
    ∀ (es : List PEvent) (st : RState),
      ∃ ext, (drainV2 df goal ml st es).1.collected = st.collected ++ ext := by
  intro es
  induction es with
  | nil => intro st; exact ⟨[], by simp [drainV2_nil]⟩
  | cons e es ih =>
    intro st
    cases e with
    | fail => exact ⟨[], by simp [drainV2_fail]⟩
    | yield r =>
      rw [drainV2_cons]
      split_ifs with h1 h2 h3
      · exact ih st
      · exact ih st
      · exact ⟨[r], rfl⟩
      · obtain ⟨ext, hext⟩ := ih (⟨st.collected ++ [r], r.url :: st.seen⟩ : RState)
        exact ⟨[r] ++ ext, by simpa [List.append_assoc] using hext⟩

lemma runV2Aux_collected_ext (df : String → String) (goal : Int) (ml : Nat) :
    ∀ (ps : List (List PEvent)) (st : RState),
      ∃ ext, (runV2Aux df goal ml st ps).1.collected = st.collected ++ ext := by
  intro ps
  induction ps with
  | nil => intro st; exact ⟨[], by simp [runV2Aux_nil]⟩
  | cons p ps ih =>
    intro st
    rw [runV2Aux_cons]
    obtain ⟨ext, hext⟩ := drainV2_collected_ext df goal ml p st
    split_ifs with h1
    · exact ⟨ext, hext⟩
    · obtain ⟨ext2, hext2⟩ := ih (drainV2 df goal ml st p).1
      exact ⟨ext ++ ext2, by rw [hext2, hext, List.append_assoc]⟩

lemma runV1Aux_append_of_stop (goal : Nat) :
    ∀ (ps qs : List (List PEvent)) (st : RState),
      (runV1Aux goal st ps).2 = true →
      runV1Aux goal st (ps ++ qs) = runV1Aux goal st ps := by
  intro ps qs
  induction ps with
  | nil => intro st h; simp [runV1Aux] at h
  | cons p ps ih =>
    intro st h
    rw [runV1Aux_cons] at h ⊢
    rw [List.cons_append, runV1Aux_cons]
    split_ifs with h1
    · rfl
    · rw [if_neg h1] at h
      exact ih _ h

lemma drainV1_fail_trunc (goal : Nat) :
    ∀ (evs junk : List PEvent) (st : RState),
      drainV1 goal st (evs ++ PEvent.fail :: junk) = drainV1 goal st evs := by
  intro evs junk
  induction evs with
  | nil => intro st; rfl
  | cons e es ih =>
    intro st
    cases e with
    | fail => rfl
    | yield r =>
      rw [List.cons_append, drainV1_cons, drainV1_cons]
      split_ifs
      · rfl
      · exact ih _
      · exact ih st

lemma runV1Aux_zero_yield (goal : Nat) (junk : List PEvent) :
    ∀ (ps qs : List (List PEvent)) (st : RState),
      runV1Aux goal st (ps ++ (PEvent.fail :: junk) :: qs) =
        runV1Aux goal st (ps ++ qs) := by
  intro ps qs
  induction ps with
  | nil =>
    intro st
    rw [List.nil_append, List.nil_append, runV1Aux_cons]
    simp [drainV1]
  | cons p ps ih =>
    intro st
    rw [List.cons_append, List.cons_append, runV1Aux_cons, runV1Aux_cons]
    split_ifs
    · rfl
    · exact ih _

lemma drainV1_collected_ext (goal : Nat) :
    ∀ (es : List PEvent) (st : RState),
      ∃ ext, (drainV1 goal st es).1.collected = st.collected ++ ext := by
  intro es
  induction es with
  | nil => intro st; exact ⟨[], by simp [drainV1]⟩
  | cons e es ih =>
    intro st
    cases e with
    | fail => exact ⟨[], by simp [drainV1]⟩
    | yield r =>
      rw [drainV1_cons]
      split_ifs with h1 h2
      · exact ⟨[r], rfl⟩
      · obtain ⟨ext, hext⟩ := ih (⟨st.collected ++ [r], r.url :: st.seen⟩ : RState)
        exact ⟨[r] ++ ext, by simpa [List.append_assoc] using hext⟩
      · exact ih st

lemma runV1Aux_collected_ext (goal : Nat) :
    ∀ (ps : List (List PEvent)) (st : RState),
      ∃ ext, (runV1Aux goal st ps).1.collected = st.collected ++ ext := by
  intro ps
  induction ps with
  | nil => intro st; exact ⟨[], by simp [runV1Aux]⟩
  | cons p ps ih =>
    intro st
    rw [runV1Aux_cons]
    obtain ⟨ext, hext⟩ := drainV1_collected_ext goal p st
    split_ifs with h1
    · exact ⟨ext, hext⟩
    · obtain ⟨ext2, hext2⟩ := ih (drainV1 goal st p).1
      exact ⟨ext ++ ext2, by rw [hext2, hext, List.append_assoc]⟩

lemma drainV2_all_short (df : String → String) (goal : Int) (ml : Nat) :
    ∀ es : List PEvent, (∀ r ∈ yielded es, r.text.length < ml) →
      drainV2 df goal ml ⟨[], []⟩ es = (⟨[], []⟩, false) := by
  intro es
  induction es with
  | nil => intro _; rfl
  | cons e es ih =>
    intro h
    cases e with
    | fail => rfl
    | yield r =>
      have hr : r.text.length < ml := h r (by simp [yielded])
      rw [drainV2_cons]
      rw [if_neg (by simp), if_pos hr]
      exact ih fun x hx => h x (by simp [yielded, hx])

lemma drainV2_first_qual (df : String → String) (goal : Int) (ml : Nat)
    (hg : goal ≤ 0) :
    ∀ es : List PEvent, (∃ r ∈ yielded es, ml ≤ r.text.length) →
      ∃ r : Rec, ml ≤ r.text.length ∧
        drainV2 df goal ml ⟨[], []⟩ es = (⟨[r], [r.url]⟩, true) := by
  intro es
  induction es with
  | nil => intro h; simp [yielded] at h
  | cons e es ih =>
    intro h
    cases e with
    | fail => simp [yielded] at h
    | yield r =>
      by_cases hr : ml ≤ r.text.length
      · refine ⟨r, hr, ?_⟩
        rw [drainV2_cons]
        rw [if_neg (by simp), if_neg (by omega), if_pos (by simp; omega)]
        simp
      · obtain ⟨x, hx, hlen⟩ := h
        simp only [yielded, List.mem_cons] at hx
        rcases hx with rfl | hx
        · exact absurd hlen hr
        · obtain ⟨y, hy, hrun⟩ := ih ⟨x, hx, hlen⟩
          refine ⟨y, hy, ?_⟩
          rw [drainV2_cons, if_neg (by simp), if_pos (by omega)]
          exact hrun

lemma runV2Aux_quota_nonpos (df : String → String) (goal : Int) (ml : Nat)
    (hg : goal ≤ 0) :
    ∀ ps : List (List PEvent),
      (∃ p ∈ ps, ∃ r ∈ yielded p, ml ≤ r.text.length) →
      ∃ r : Rec, ml ≤ r.text.length ∧
        runV2Aux df goal ml ⟨[], []⟩ ps = (⟨[r], [r.url]⟩, true) := by
  intro ps
  induction ps with
  | nil => intro h; simp at h
  | cons p ps ih =>
    intro h
    by_cases hp : ∃ r ∈ yielded p, ml ≤ r.text.length
    · obtain ⟨r, hr, hdrain⟩ := drainV2_first_qual df goal ml hg p hp
      refine ⟨r, hr, ?_⟩
      rw [runV2Aux_cons, hdrain]
      rfl
    · push_neg at hp
      have hdrain := drainV2_all_short df goal ml p (fun r hr => hp r hr)
      obtain ⟨q, hq, hrest⟩ : ∃ q ∈ ps, ∃ r ∈ yielded q, ml ≤ r.text.length := by
        obtain ⟨x, hx, r, hr, hlen⟩ := h
        simp only [List.mem_cons] at hx
        rcases hx with rfl | hx
        · exact absurd hlen (not_le.mpr (hp r hr))
        · exact ⟨x, hx, r, hr, hlen⟩
      obtain ⟨r, hr, hrun⟩ := ih ⟨q, hq, hrest⟩
      refine ⟨r, hr, ?_⟩
      rw [runV2Aux_cons, hdrain]
      simpa using hrun

lemma firstLongLoop_eq_find (minLen : Nat) :
    ∀ l : List String,
      firstLongLoop minLen l =
        ((l.map pyStrip).find? fun p => decide (minLen ≤ p.length)).getD "" := by
  intro l
  induction l with
  | nil => rfl
  | cons p ps ih =>
    simp only [firstLongLoop, List.map_cons, List.find?_cons]
    by_cases h : minLen ≤ (pyStrip p).length
    · simp [h]
    · simp [h, ih]


lemma seenInv_step (st : RState) (r : Rec) (h : SeenInv st) :
    SeenInv ⟨st.collected ++ [r], r.url :: st.seen⟩ := by
  simp only [SeenInv] at h ⊢
  simp [List.map_append, List.reverse_append, h]

lemma seenInv_runV2 (df : String → String) (goal : Int) (ml : Nat)
    (ps : List (List PEvent)) :
    SeenInv (runV2Aux df goal ml ⟨[], []⟩ ps).1 := by
  refine runV2Aux_inv df goal ml SeenInv ?_ ps ⟨[], []⟩ ?_
  · intro st r h _ _
    exact seenInv_step st r h
  · simp [SeenInv]

lemma seenInv_runV1 (goal : Nat) (ps : List (List PEvent)) :
    SeenInv (runV1Aux goal ⟨[], []⟩ ps).1 := by
  refine runV1Aux_inv goal SeenInv ?_ ps ⟨[], []⟩ ?_
  · intro st r h _ _
    exact seenInv_step st r h
  · simp [SeenInv]

lemma nodup_runV2 (df : String → String) (goal : Int) (ml : Nat)
    (ps : List (List PEvent)) :
    ((runV2Aux df goal ml ⟨[], []⟩ ps).1.collected.map fun r => r.url).Nodup ∧
      ((runV2Aux df goal ml ⟨[], []⟩ ps).1.collected.map fun r => df r.url).Nodup := by
  have h := runV2Aux_inv df goal ml
    (fun st => SeenInv st ∧ (st.collected.map fun r => r.url).Nodup ∧
      (st.collected.map fun r => df r.url).Nodup) ?_ ps ⟨[], []⟩ ?_
  · exact ⟨h.2.1, h.2.2⟩
  · rintro st r ⟨hseen, hn1, hn2⟩ hguard _
    rw [Bool.or_eq_false_iff] at hguard
    have hurl : r.url ∉ st.seen := by simpa using hguard.1
    have hdom : df r.url ∉ st.seen.map df := by simpa using hguard.2
    rw [hseen, List.mem_reverse] at hurl
    rw [hseen, List.map_reverse, List.mem_reverse, List.map_map] at hdom
    refine ⟨seenInv_step st r hseen, ?_, ?_⟩
    · simp only [List.map_append, List.nodup_append, List.map_cons, List.map_nil]
      refine ⟨hn1, List.nodup_singleton _, ?_⟩
      simp only [List.disjoint_singleton]
      exact hurl
    · simp only [List.map_append, List.nodup_append, List.map_cons, List.map_nil]
      refine ⟨hn2, List.nodup_singleton _, ?_⟩
      simp only [List.disjoint_singleton]
      simpa [Function.comp] using hdom
  · simp [SeenInv]

lemma nodup_runV1 (goal : Nat) (ps : List (List PEvent)) :
    ((runV1Aux goal ⟨[], []⟩ ps).1.collected.map fun r => r.url).Nodup := by
  have h := runV1Aux_inv goal
    (fun st => SeenInv st ∧ (st.collected.map fun r => r.url).Nodup) ?_ ps ⟨[], []⟩ ?_
  · exact h.2
  · rintro st r ⟨hseen, hn1⟩ hguard _
    have hurl : r.url ∉ st.seen := by simpa using hguard
    rw [hseen, List.mem_reverse] at hurl
    refine ⟨seenInv_step st r hseen, ?_⟩
    simp only [List.map_append, List.nodup_append, List.map_cons, List.map_nil]
    refine ⟨hn1, List.nodup_singleton _, ?_⟩
    simp only [List.disjoint_singleton]
    exact hurl
  · simp [SeenInv]


/-- C1 (amended): provided the requested quota is at least 1 (the v1
script fixes it at 100), the accumulated result never exceeds the quota
and equals it exactly when the run stopped early; the accept that
reaches the quota returns at once, ignoring the rest of the current
producer; and once the run has stopped, appending further producers
changes nothing, so no later producer is consulted. -/
theorem claim_C1_amended :
    (∀ (df : String → String) (ml : Nat) (goal : Int) (ps : List (List PEvent)),
        1 ≤ goal →
        ((runV2Aux df goal ml ⟨[], []⟩ ps).1.collected.length : Int) ≤ goal ∧
          ((runV2Aux df goal ml ⟨[], []⟩ ps).2 = true →
            ((runV2Aux df goal ml ⟨[], []⟩ ps).1.collected.length : Int) = goal)) ∧
    (∀ (df : String → String) (ml : Nat) (goal : Int) (st : RState) (r : Rec)
        (es es' : List PEvent),
        (st.seen.contains r.url || (st.seen.map df).contains (df r.url)) = false →
        ¬ r.text.length < ml →
        goal ≤ (st.collected.length : Int) + 1 →
        drainV2 df goal ml st (PEvent.yield r :: es) =
            (⟨st.collected ++ [r], r.url :: st.seen⟩, true) ∧
          drainV2 df goal ml st (PEvent.yield r :: es) =
            drainV2 df goal ml st (PEvent.yield r :: es')) ∧
    (∀ (df : String → String) (ml : Nat) (goal : Int) (st : RState)
        (ps qs : List (List PEvent)),
        (runV2Aux df goal ml st ps).2 = true →
        runV2Aux df goal ml st (ps ++ qs) = runV2Aux df goal ml st ps) ∧
    (∀ ps : List (List PEvent),
        (runV1Aux 100 ⟨[], []⟩ ps).1.collected.length ≤ 100) := by
  refine ⟨?_, ?_, ?_, ?_⟩
  · intro df ml goal ps hg
    have h0 : (((⟨[], []⟩ : RState)).collected.length : Int) < goal := by
      simp; omega
    have hl := runV2Aux_len df goal ml ps ⟨[], []⟩ h0
    constructor
    · cases hb : (runV2Aux df goal ml ⟨[], []⟩ ps).2
      · exact le_of_lt (hl.2 hb)
      · exact le_of_eq (hl.1 hb)
    · exact hl.1
  · intro df ml goal st r es es' hguard hlen hq
    have hstop : goal ≤ ((st.collected ++ [r]).length : Int) := by
      simp only [List.length_append, List.length_cons, List.length_nil]
      push_cast
      omega
    have hng : ¬ ((st.seen.contains r.url || (st.seen.map df).contains (df r.url)) = true) := by
      simp only [hguard]
      exact Bool.false_ne_true
    constructor
    · rw [drainV2_cons, if_neg hng, if_neg hlen, if_pos hstop]
    · rw [drainV2_cons, if_neg hng, if_neg hlen, if_pos hstop,
        drainV2_cons, if_neg hng, if_neg hlen, if_pos hstop]
  · exact fun df ml goal st ps qs h => runV2Aux_append_of_stop df goal ml ps qs st h
  · intro ps
    have hl := runV1Aux_len 100 ps ⟨[], []⟩ (by simp)
    cases hb : (runV1Aux 100 ⟨[], []⟩ ps).2
    · exact le_of_lt (hl.2 hb)
    · exact le_of_eq (hl.1 hb)

set_option maxRecDepth 4000 in
/-- C1 counterexample: with requested quota `--n 0` and one producer
holding one qualifying record, the v2 run accepts that record, so the
result size 1 exceeds the quota — the claim's bound fails as stated
because the quota check runs only after an append. -/
theorem claim_C1_counterexample :
    ¬ (((runV2Aux id 0 120 ⟨[], []⟩ [[PEvent.yield recA]]).1.collected.length : Int) ≤ 0) := by
  decide

set_option maxRecDepth 4000 in
/-- C1 witness: a concrete quota-2 run over four qualifying records
ends with at most 2 records. -/
theorem claim_C1_witness :
    ((runV2Aux id 2 120 ⟨[], []⟩
        [[PEvent.yield recA, PEvent.yield recB, PEvent.yield recC],
          [PEvent.yield recD]]).1.collected.length : Int) ≤ 2 :=
  (claim_C1_amended.1 id 120 2 _ (by decide)).1

/-- C2: in every completed run of either orchestrator the collected
records carry pairwise distinct `source_url` values, and in the
domain-aware v2 variant additionally pairwise distinct registrable
domains (for any domain function `df`). -/
theorem claim_C2 :
    (∀ (df : String → String) (goal : Int) (ml : Nat) (ps : List (List PEvent)),
        ((runV2Aux df goal ml ⟨[], []⟩ ps).1.collected.map fun r => r.url).Nodup ∧
          ((runV2Aux df goal ml ⟨[], []⟩ ps).1.collected.map fun r => df r.url).Nodup) ∧
    (∀ (goal : Nat) (ps : List (List PEvent)),
        ((runV1Aux goal ⟨[], []⟩ ps).1.collected.map fun r => r.url).Nodup) :=
  ⟨fun df goal ml ps => nodup_runV2 df goal ml ps,
    fun goal ps => nodup_runV1 goal ps⟩

/-- C3 (amended): the domain-aware v2 orchestrator accepts a pulled
record (appends it and marks URL and domain seen) iff its URL and
domain are unseen and its text has character length `≥ min_len`, and
skips it otherwise, leaving the state unchanged; the plain v1
orchestrator instead accepts iff the URL is unseen and the text has
more than 20 whitespace-separated words.  Every record collected by a
v2 run has length `≥ min_len`. -/
theorem claim_C3_amended :
    (∀ (df : String → String) (goal : Int) (ml : Nat) (st : RState) (r : Rec)
        (es : List PEvent),
        r.url ∉ st.seen → df r.url ∉ st.seen.map df → ml ≤ r.text.length →
        drainV2 df goal ml st (PEvent.yield r :: es) =
          if goal ≤ ((st.collected ++ [r]).length : Int) then
            (⟨st.collected ++ [r], r.url :: st.seen⟩, true)
          else drainV2 df goal ml ⟨st.collected ++ [r], r.url :: st.seen⟩ es) ∧
    (∀ (df : String → String) (goal : Int) (ml : Nat) (st : RState) (r : Rec)
        (es : List PEvent),
        (r.url ∈ st.seen ∨ df r.url ∈ st.seen.map df ∨ r.text.length < ml) →
        drainV2 df goal ml st (PEvent.yield r :: es) = drainV2 df goal ml st es) ∧
    (∀ (goal : Nat) (st : RState) (r : Rec) (es : List PEvent),
        r.url ∉ st.seen → 20 < pyWordsCount r.text →
        drainV1 goal st (PEvent.yield r :: es) =
          if goal ≤ (st.collected ++ [r]).length then
            (⟨st.collected ++ [r], r.url :: st.seen⟩, true)
          else drainV1 goal ⟨st.collected ++ [r], r.url :: st.seen⟩ es) ∧
    (∀ (goal : Nat) (st : RState) (r : Rec) (es : List PEvent),
        (r.url ∈ st.seen ∨ pyWordsCount r.text ≤ 20) →
        drainV1 goal st (PEvent.yield r :: es) = drainV1 goal st es) ∧
    (∀ (df : String → String) (goal : Int) (ml : Nat) (ps : List (List PEvent)),
        ∀ r ∈ (runV2Aux df goal ml ⟨[], []⟩ ps).1.collected, ml ≤ r.text.length) := by
  refine ⟨?_, ?_, ?_, ?_, ?_⟩
  · intro df goal ml st r es h1 h2 h3
    rw [drainV2_cons, if_neg ?_, if_neg (by omega)]
    simp only [Bool.or_eq_true, not_or]
    exact ⟨by simpa using h1, by simpa using h2⟩
  · intro df goal ml st r es h
    rcases h with h | h | h
    · rw [drainV2_cons, if_pos (by simpa using Or.inl h)]
    · rw [drainV2_cons, if_pos (by simp; right; simpa using h)]
    · rw [drainV2_cons]
      split_ifs <;> rfl
  · intro goal st r es h1 h2
    rw [drainV1_cons, if_pos ?_]
    simp only [Bool.and_eq_true, Bool.not_eq_true', decide_eq_true_eq]
    exact ⟨by simpa using h1, h2⟩
  · intro goal st r es h
    rw [drainV1_cons, if_neg ?_]
    simp only [Bool.and_eq_true, Bool.not_eq_true', decide_eq_true_eq, not_and]
    intro hc
    rcases h with h | h
    · exact absurd (by simpa using hc) (by simpa using h)
    · omega
  · intro df goal ml ps
    refine runV2Aux_inv df goal ml
      (fun st => ∀ r ∈ st.collected, ml ≤ r.text.length) ?_ ps ⟨[], []⟩ (by simp)
    intro st r hP _ hlen x hx
    rcases List.mem_append.mp hx with hx | hx
    · exact hP x hx
    · rcases List.mem_singleton.mp hx with rfl
      omega

set_option maxRecDepth 4000 in
/-- C3 counterexample: the v1 orchestrator rejects an unseen
130-character single-word record (character length ≥ 120) and accepts
an unseen 42-character 21-word record, so its gate is word count, not
character length. -/
theorem claim_C3_counterexample :
    (120 ≤ recD.text.length ∧ recD.url ∉ ([] : List String) ∧
      (runV1Aux 100 ⟨[], []⟩ [[PEvent.yield recD]]).1.collected = []) ∧
    (manyWords.length < 120 ∧
      (runV1Aux 100 ⟨[], []⟩ [[PEvent.yield ⟨manyWords, "blog", "https://w.example/5"⟩]]).1.collected =
        [⟨manyWords, "blog", "https://w.example/5"⟩]) := by
  refine ⟨⟨by decide, by simp, by decide⟩, by decide, by decide⟩

set_option maxRecDepth 4000 in
/-- C3 witness: the v2 orchestrator accepts a concrete unseen,
long-enough record. -/
theorem claim_C3_witness :
    drainV2 id 1 120 ⟨[], []⟩ [PEvent.yield recA] = (⟨[recA], [recA.url]⟩, true) := by
  have h := claim_C3_amended.1 id 1 120 ⟨[], []⟩ recA [] (by simp) (by simp) (by decide)
  simpa using h

set_option maxRecDepth 8000 in
/-- C4 (amended): each extractor returns the first block of its split
whose trimmed character length is `≥ min_len` (empty result when none
qualifies), where the v2 split is Python `re.split(r"\n\s*\n", text)`
(a newline, optional whitespace, then a newline — so whitespace-only
lines also separate blocks) and the v1 split is on every single
newline; on the P5 input both return the second block verbatim
(trimmed). -/
theorem claim_C4_amended :
    (∀ (text : String) (ml : Nat),
        first_long_paragraph_v2 text ml =
          (((blankSplit text.data).map fun b => (⟨b⟩ : String)).map pyStrip
            |>.find? fun p => decide (ml ≤ p.length)).getD "") ∧
    (∀ (text : String) (ml : Nat),
        first_long_paragraph_v1 text ml =
          (((splitNl text.data).map fun b => (⟨b⟩ : String)).map pyStrip
            |>.find? fun p => decide (ml ≤ p.length)).getD "") ∧
    first_long_paragraph_v2 p5Input 120 = p5Second ∧
    first_long_paragraph_v1 p5Input 120 = p5Second := by
  refine ⟨?_, ?_, by decide, by decide⟩
  · intro text ml
    exact firstLongLoop_eq_find ml ((blankSplit text.data).map fun b => (⟨b⟩ : String))
  · intro text ml
    exact firstLongLoop_eq_find ml ((splitNl text.data).map fun b => (⟨b⟩ : String))

set_option maxRecDepth 8000 in
/-- C4 counterexample: on two 70-character lines separated by a bare
newline, splitting on blank-line boundaries yields one qualifying
141-character block, but the v1 extractor returns `""`; on the same
lines separated by a whitespace-only line the spec's newline-only rule
yields one qualifying block but the v2 extractor returns `""`.  Neither
extractor implements the claim's splitting rule verbatim. -/
theorem claim_C4_counterexample :
    (first_long_paragraph_v1 twoLines 120 = "" ∧
      extract_first_paragraph_spec twoLines 120 = some twoLines ∧
      120 ≤ twoLines.length) ∧
    (first_long_paragraph_v2 wsLines 120 = "" ∧
      extract_first_paragraph_spec wsLines 120 = some wsLines ∧
      120 ≤ wsLines.length) := by
  exact ⟨⟨by decide, by decide, by decide⟩, by decide, by decide, by decide⟩

/-- C5: a producer failure is invisible beyond truncation — draining
events that end in a raised exception equals draining the events before
it, a producer that fails immediately can be removed from the run
without changing it, and every run only ever extends the already
accepted records.  Both orchestrators always complete (they are total
functions) and no failure aborts the run. -/
theorem claim_C5 :
    (∀ (df : String → String) (goal : Int) (ml : Nat) (st : RState)
        (evs junk : List PEvent),
        drainV2 df goal ml st (evs ++ PEvent.fail :: junk) =
          drainV2 df goal ml st evs) ∧
    (∀ (df : String → String) (goal : Int) (ml : Nat) (st : RState)
        (ps qs : List (List PEvent)) (junk : List PEvent),
        runV2Aux df goal ml st (ps ++ (PEvent.fail :: junk) :: qs) =
          runV2Aux df goal ml st (ps ++ qs)) ∧
    (∀ (df : String → String) (goal : Int) (ml : Nat) (st : RState)
        (ps : List (List PEvent)),
        ∃ ext, (runV2Aux df goal ml st ps).1.collected = st.collected ++ ext) ∧
    (∀ (goal : Nat) (st : RState) (evs junk : List PEvent),
        drainV1 goal st (evs ++ PEvent.fail :: junk) = drainV1 goal st evs) ∧
    (∀ (goal : Nat) (st : RState) (ps qs : List (List PEvent)) (junk : List PEvent),
        runV1Aux goal st (ps ++ (PEvent.fail :: junk) :: qs) =
          runV1Aux goal st (ps ++ qs)) ∧
    (∀ (goal : Nat) (st : RState) (ps : List (List PEvent)),
        ∃ ext, (runV1Aux goal st ps).1.collected = st.collected ++ ext) :=
  ⟨fun df goal ml st evs junk => drainV2_fail_trunc df goal ml evs junk st,
    fun df goal ml st ps qs junk => runV2Aux_zero_yield df goal ml junk ps qs st,
    fun df goal ml st ps => runV2Aux_collected_ext df goal ml ps st,
    fun goal st evs junk => drainV1_fail_trunc goal evs junk st,
    fun goal st ps qs junk => runV1Aux_zero_yield goal junk ps qs st,
    fun goal st ps => runV1Aux_collected_ext goal ps st⟩

/-- C6 (amended): on a transport failure or non-200 response the
single-document adapters (v1 Gutenberg, Cervantes, Wikisource) signal
an error, and the v2 Gutenberg adapter also signals an error when both
fetches succeed but no paragraph qualifies; but the v1 Gutenberg,
Cervantes and Wikisource adapters return a record with empty text
instead of failing when the fetch succeeds and no paragraph qualifies
(the orchestrator's length gate later rejects such records). -/
theorem claim_C6_amended :
    (∀ url : String,
        paragraph_from_gutenberg_v1 FetchOutcome.fail url = Except.error "transport" ∧
          paragraph_from_cervantes FetchOutcome.fail url = Except.error "transport" ∧
          paragraph_from_wikisource FetchOutcome.fail url = Except.error "transport") ∧
    (∀ (s : Nat) (f b url : String), s ≠ 200 →
        paragraph_from_gutenberg_v1 (FetchOutcome.resp s f b) url =
            Except.error "No se pudo descargar Gutenber." ∧
          paragraph_from_cervantes (FetchOutcome.resp s f b) url =
            Except.error "Cervantes falló" ∧
          paragraph_from_wikisource (FetchOutcome.resp s f b) url =
            Except.error "Wikisource falló") ∧
    (∀ (f b url : String), first_long_paragraph_v1 b = "" →
        paragraph_from_gutenberg_v1 (FetchOutcome.resp 200 f b) url =
          Except.ok ⟨"", "novela", url⟩) ∧
    (∀ (f b url : String), first_long_paragraph_v2 b = "" →
        paragraph_from_cervantes (FetchOutcome.resp 200 f b) url =
          Except.ok ⟨"", "novela", url⟩) ∧
    (∀ (f b url : String), first_long_paragraph_v2 (⟨stripTemplates b.data⟩ : String) = "" →
        paragraph_from_wikisource (FetchOutcome.resp 200 f b) url =
          Except.ok ⟨"", "cuento", url⟩) ∧
    (∀ (f1 b1 f2 b2 u1 u2 : String),
        first_long_paragraph_v2 b1 = "" → first_long_paragraph_v2 b2 = "" →
        paragraph_from_gutenberg_v2 (FetchOutcome.resp 200 f1 b1)
            (FetchOutcome.resp 200 f2 b2) u1 u2 =
          Except.error "Gutenberg falló") := by
  refine ⟨fun url => ⟨rfl, rfl, rfl⟩, ?_, ?_, ?_, ?_, ?_⟩
  · intro s f b url hs
    refine ⟨?_, ?_, ?_⟩ <;>
      simp [paragraph_from_gutenberg_v1, paragraph_from_cervantes,
        paragraph_from_wikisource, hs]
  · intro f b url h
    simp [paragraph_from_gutenberg_v1, h]
  · intro f b url h
    simp [paragraph_from_cervantes, h]
  · intro f b url h
    simp [paragraph_from_wikisource, h]
  · intro f1 b1 f2 b2 u1 u2 h1 h2
    simp [paragraph_from_gutenberg_v2, h1, h2]

/-- C6 counterexample: on a 200 response whose body has no qualifying
paragraph, the Cervantes, Wikisource and v1 Gutenberg adapters yield an
empty-text record rather than a `SourceUnavailable` error. -/
theorem claim_C6_counterexample :
    paragraph_from_cervantes (FetchOutcome.resp 200 "https://cv.example/a" "corto")
        "https://cv.example/a" = Except.ok ⟨"", "novela", "https://cv.example/a"⟩ ∧
    paragraph_from_wikisource (FetchOutcome.resp 200 "https://ws.example/b" "corto")
        "https://ws.example/b" = Except.ok ⟨"", "cuento", "https://ws.example/b"⟩ ∧
    paragraph_from_gutenberg_v1 (FetchOutcome.resp 200 "https://gut.example/c" "corto")
        "https://gut.example/c" = Except.ok ⟨"", "novela", "https://gut.example/c"⟩ :=
  ⟨rfl, rfl, rfl⟩

/-- C6 witness: the v2 Gutenberg adapter raises when both fetches
return 200 but neither body has a qualifying paragraph. -/
theorem claim_C6_witness :
    paragraph_from_gutenberg_v2 (FetchOutcome.resp 200 "https://g.example/1" "breve")
        (FetchOutcome.resp 200 "https://g.example/2" "corto") "https://g.example/1"
        "https://g.example/2" = Except.error "Gutenberg falló" :=
  claim_C6_amended.2.2.2.2.2 "https://g.example/1" "breve" "https://g.example/2" "corto"
    "https://g.example/1" "https://g.example/2" rfl rfl

/-- C7 (amended): records of the feed-based adapters carry the feed
entry's link exactly as listed (a request-time alias, not the resolved
final URL); a record of the random short-fiction endpoint carries the
final URL after redirects (`resp.url`); and any record of a
single-document adapter (v1/v2 Gutenberg, Cervantes, Wikisource)
carries the fixed request URL the adapter was invoked with. -/
theorem claim_C7_amended :
    (∀ (fetch : String → FetchOutcome) (entries : List (Option String))
        (tipo : String) (r : Rec),
        r ∈ paragraphs_from_rss_v2 fetch entries tipo → some r.url ∈ entries) ∧
    (∀ (fetch : String → FetchOutcome) (entries : List (Option String))
        (tipo : String) (r : Rec),
        r ∈ paragraphs_from_rss_v1 fetch entries tipo → some r.url ∈ entries) ∧
    (∀ (s : Nat) (f b : String) (r : Rec),
        random_cuento_paragraph (FetchOutcome.resp s f b) = Except.ok r →
        r.url = f) ∧
    (∀ (o : FetchOutcome) (url : String) (r : Rec),
        paragraph_from_gutenberg_v1 o url = Except.ok r → r.url = url) ∧
    (∀ (o : FetchOutcome) (url : String) (r : Rec),
        paragraph_from_cervantes o url = Except.ok r → r.url = url) ∧
    (∀ (o : FetchOutcome) (url : String) (r : Rec),
        paragraph_from_wikisource o url = Except.ok r → r.url = url) ∧
    (∀ (o1 o2 : FetchOutcome) (u1 u2 : String) (r : Rec),
        paragraph_from_gutenberg_v2 o1 o2 u1 u2 = Except.ok r →
        r.url = u1 ∨ r.url = u2) := by
  refine ⟨?_, ?_, ?_, ?_, ?_, ?_, ?_⟩
  · intro fetch entries tipo r hr
    obtain ⟨l?, hl, hf⟩ := List.mem_filterMap.mp hr
    cases l? with
    | none => simp at hf
    | some link =>
      cases hfetch : fetch link with
      | fail => simp [hfetch] at hf
      | resp s fu body =>
        simp only [hfetch] at hf
        split_ifs at hf with h1 h2
        rw [Option.some_inj] at hf
        subst hf
        simpa using hl
  · intro fetch entries tipo r hr
    obtain ⟨l?, hl, hf⟩ := List.mem_filterMap.mp hr
    cases l? with
    | none => simp at hf
    | some link =>
      cases hfetch : fetch link with
      | fail => simp [hfetch] at hf
      | resp s fu body =>
        simp only [hfetch] at hf
        split_ifs at hf with h1 h2
        rw [Option.some_inj] at hf
        subst hf
        simpa using hl
  · intro s f b r h
    rw [random_cuento_paragraph] at h
    split_ifs at h with h1
    rw [Except.ok.injEq] at h
    subst h
    rfl
  · intro o url r h
    cases o with
    | fail => simp [paragraph_from_gutenberg_v1] at h
    | resp s f b =>
      simp only [paragraph_from_gutenberg_v1] at h
      split_ifs at h with h1
      rw [Except.ok.injEq] at h
      subst h
      rfl
  · intro o url r h
    cases o with
    | fail => simp [paragraph_from_cervantes] at h
    | resp s f b =>
      simp only [paragraph_from_cervantes] at h
      split_ifs at h with h1
      rw [Except.ok.injEq] at h
      subst h
      rfl
  · intro o url r h
    cases o with
    | fail => simp [paragraph_from_wikisource] at h
    | resp s f b =>
      simp only [paragraph_from_wikisource] at h
      split_ifs at h with h1
      rw [Except.ok.injEq] at h
      subst h
      rfl
  · intro o1 o2 u1 u2 r h
    cases o1 with
    | fail => simp [paragraph_from_gutenberg_v2] at h
    | resp s1 f1 b1 =>
      simp only [paragraph_from_gutenberg_v2] at h
      split_ifs at h with h1
      · rw [Except.ok.injEq] at h
        subst h
        exact Or.inl rfl
      · cases o2 with
        | fail => simp at h
        | resp s2 f2 b2 =>
          dsimp only at h
          split_ifs at h with h2
          rw [Except.ok.injEq] at h
          subst h
          exact Or.inr rfl

set_option maxRecDepth 4000 in
/-- C7 counterexample: a feed entry whose link redirects to a
different final URL produces a record whose `source_url` is the entry's
link, not the final URL after the redirect — the claim fails for the
RSS adapters. -/
theorem claim_C7_counterexample :
    paragraphs_from_rss_v2 (fun _ => FetchOutcome.resp 200 "https://final.example/x" longA)
        [some "https://feed.example/alias"] "noticia" =
      [⟨longA, "noticia", "https://feed.example/alias"⟩] ∧
    "https://feed.example/alias" ≠ "https://final.example/x" :=
  ⟨rfl, by decide⟩

/-- C7 witness: a concrete cuento response's record carries its final
URL. -/
theorem claim_C7_witness :
    (⟨first_long_paragraph_v1 longA, "cuento", "https://final.example/c"⟩ : Rec).url =
      "https://final.example/c" :=
  claim_C7_amended.2.2.1 200 "https://final.example/c" longA _ rfl

/-- C8: when a run ends with fewer records than requested (producers
exhausted before the quota), neither orchestrator stopped early, the
partial result is still produced, and the shortfall warning is
reported; the run returns normally (the model is a total function, so
exhaustion is never a fault). -/
theorem claim_C8 (df : String → String) (goal : Int) (ps ps1 : List (List PEvent))
    (h2 : ((runV2Aux df goal 120 ⟨[], []⟩ ps).1.collected.length : Int) < goal)
    (h1 : (runV1Aux 100 ⟨[], []⟩ ps1).1.collected.length < 100) :
    (runV2Aux df goal 120 ⟨[], []⟩ ps).2 = false ∧
      mainV2 df goal ps = ((runV2Aux df goal 120 ⟨[], []⟩ ps).1.collected, true) ∧
      (runV1Aux 100 ⟨[], []⟩ ps1).2 = false ∧
      mainV1 ps1 = ((runV1Aux 100 ⟨[], []⟩ ps1).1.collected, true) := by
  have h0 : (((⟨[], []⟩ : RState)).collected.length : Int) < goal := by
    have := Int.natCast_nonneg (runV2Aux df goal 120 ⟨[], []⟩ ps).1.collected.length
    simp
    omega
  have hl := runV2Aux_len df goal 120 ps ⟨[], []⟩ h0
  have hstop : (runV2Aux df goal 120 ⟨[], []⟩ ps).2 = false := by
    cases hb : (runV2Aux df goal 120 ⟨[], []⟩ ps).2
    · rfl
    · exact absurd (hl.1 hb) (by omega)
  have hl1 := runV1Aux_len 100 ps1 ⟨[], []⟩ (by simp)
  have hstop1 : (runV1Aux 100 ⟨[], []⟩ ps1).2 = false := by
    cases hb : (runV1Aux 100 ⟨[], []⟩ ps1).2
    · rfl
    · exact absurd (hl1.1 hb) (by omega)
  refine ⟨hstop, ?_, hstop1, ?_⟩
  · rw [mainV2]
    rw [decide_eq_true h2]
  · rw [mainV1]
    rw [decide_eq_true h1]

set_option maxRecDepth 4000 in
/-- C8 witness: the spec's exhaustion scenario — three qualifying
records, quota 10 — yields the 3 partial records plus a warning, and an
empty v1 run warns as well. -/
theorem claim_C8_witness :
    mainV2 id 10 [[PEvent.yield recA], [PEvent.yield recB], [PEvent.yield recC]] =
      ([recA, recB, recC], true) ∧ mainV1 [] = ([], true) := by
  have h := claim_C8 id 10
    [[PEvent.yield recA], [PEvent.yield recB], [PEvent.yield recC]] []
    (by decide) (by decide)
  exact ⟨h.2.1.trans (by decide), h.2.2.2.trans (by decide)⟩

/-- C9: accepting a record extends the seen set by exactly that
record's URL, so the invariant "seen = URLs of collected" is preserved
through any run segment of either variant (including the `_fixed`
variant, which shares the v1 loop) and holds at every point of a run
from the initial empty state; a record skipped for duplication or for
the length/word gate leaves the state completely unchanged. -/
theorem claim_C9 :
    (∀ (df : String → String) (goal : Int) (ml : Nat) (st : RState)
        (ps : List (List PEvent)),
        SeenInv st → SeenInv (runV2Aux df goal ml st ps).1) ∧
    (∀ (goal : Nat) (st : RState) (ps : List (List PEvent)),
        SeenInv st → SeenInv (runV1Aux goal st ps).1) ∧
    (∀ (df : String → String) (goal : Int) (ml : Nat) (ps : List (List PEvent))
        (u : String),
        u ∈ (runV2Aux df goal ml ⟨[], []⟩ ps).1.seen ↔
          u ∈ (runV2Aux df goal ml ⟨[], []⟩ ps).1.collected.map fun r => r.url) ∧
    (∀ (goal : Nat) (ps : List (List PEvent)) (u : String),
        u ∈ (runV1Aux goal ⟨[], []⟩ ps).1.seen ↔
          u ∈ (runV1Aux goal ⟨[], []⟩ ps).1.collected.map fun r => r.url) ∧
    (∀ (df : String → String) (goal : Int) (ml : Nat) (st : RState) (r : Rec)
        (es : List PEvent),
        (r.url ∈ st.seen ∨ df r.url ∈ st.seen.map df ∨ r.text.length < ml) →
        drainV2 df goal ml st (PEvent.yield r :: es) = drainV2 df goal ml st es) ∧
    (∀ (goal : Nat) (st : RState) (r : Rec) (es : List PEvent),
        (r.url ∈ st.seen ∨ pyWordsCount r.text ≤ 20) →
        drainV1 goal st (PEvent.yield r :: es) = drainV1 goal st es) := by
  refine ⟨?_, ?_, ?_, ?_, ?_, ?_⟩
  · intro df goal ml st ps h
    exact runV2Aux_inv df goal ml SeenInv (fun st r h _ _ => seenInv_step st r h) ps st h
  · intro goal st ps h
    exact runV1Aux_inv goal SeenInv (fun st r h _ _ => seenInv_step st r h) ps st h
  · intro df goal ml ps u
    rw [seenInv_runV2 df goal ml ps]
    exact List.mem_reverse
  · intro goal ps u
    rw [seenInv_runV1 goal ps]
    exact List.mem_reverse
  · intro df goal ml st r es h
    rcases h with h | h | h
    · rw [drainV2_cons, if_pos (by simpa using Or.inl h)]
    · rw [drainV2_cons, if_pos (by simp; right; simpa using h)]
    · rw [drainV2_cons]
      split_ifs <;> rfl
  · intro goal st r es h
    rw [drainV1_cons, if_neg ?_]
    simp only [Bool.and_eq_true, Bool.not_eq_true', decide_eq_true_eq, not_and]
    intro hc
    rcases h with h | h
    · exact absurd (by simpa using hc) (by simpa using h)
    · omega

set_option maxRecDepth 4000 in
/-- C9 witness: after accepting a concrete record its URL is in the
seen set. -/
theorem claim_C9_witness :
    "https://a.example/1" ∈ (runV2Aux id 1 120 ⟨[], []⟩ [[PEvent.yield recA]]).1.seen :=
  (claim_C9.2.2.1 id 1 120 [[PEvent.yield recA]] "https://a.example/1").mpr (by decide)

/-- C10 (amended): the quota check runs only after a record is
appended, so a v2 run with requested quota ≤ 0 whose producers yield at
least one qualifying record still accepts exactly one record and stops,
leaving a result of size 1, strictly above the quota (exceeding it by
exactly one when the quota is 0). -/
theorem claim_C10_amended (df : String → String) (ml : Nat) (goal : Int)
    (ps : List (List PEvent)) (hg : goal ≤ 0)
    (hq : ∃ p ∈ ps, ∃ r ∈ yielded p, ml ≤ r.text.length) :
    (runV2Aux df goal ml ⟨[], []⟩ ps).1.collected.length = 1 ∧
      (runV2Aux df goal ml ⟨[], []⟩ ps).2 = true ∧
      goal < ((runV2Aux df goal ml ⟨[], []⟩ ps).1.collected.length : Int) := by
  obtain ⟨r, hr, hrun⟩ := runV2Aux_quota_nonpos df goal ml hg ps hq
  rw [hrun]
  refine ⟨rfl, rfl, ?_⟩
  simp
  omega

set_option maxRecDepth 4000 in
/-- C10 counterexample: with quota `-1` the overshooting run ends
with 1 record, which is not `quota + 1` — the claim's "exceeds the
quota by one" fails for negative quotas. -/
theorem claim_C10_counterexample :
    ((runV2Aux id (-1) 120 ⟨[], []⟩ [[PEvent.yield recC]]).1.collected.length : Int) ≠
      -1 + 1 := by
  decide

set_option maxRecDepth 4000 in
/-- C10 witness: a concrete quota-0 run with one qualifying record
accepts exactly one record. -/
theorem claim_C10_witness :
    (runV2Aux id 0 120 ⟨[], []⟩ [[PEvent.yield recB]]).1.collected.length = 1 :=
  (claim_C10_amended id 120 0 [[PEvent.yield recB]] (by decide)
    ⟨[PEvent.yield recB], by simp, recB, by simp [yielded], by decide⟩).1
